import Mathlib

/-!
Verification of the persistence and numbering subsystem of the invoice
application (counter allocator in `src/core/counter_manager.py`, document
store in `src/core/storage_manager.py`, data model in
`src/models/invoice.py`).  Each Python operation relevant to the claims is
embedded as an executable Lean definition; the theorems settle the claims
against those definitions.

Modelling conventions:
* Python `Decimal` values are pairs (coefficient, number of fractional
  digits); arithmetic (`*`, `+`) is exact, as in the source.
* Real-time quantities (lock-file ages in seconds) are rationals; sleep
  durations are naturals in milliseconds.
* The file system is explicit state: counter files are a small inductive
  of observable content classes, the invoice directory is an association
  list from file stem to parsed document.
* SHA-256 in `_calculate_numeric_hash` is abstracted by its preimage: the
  code hashes the join of the canonical decimal strings, which is an
  injective function of the list of decimal values, so hash comparison is
  modelled as comparison of that list.
* Background work submitted to the `ThreadPoolExecutor` is modelled as a
  FIFO queue of tasks carried in the store state; `runPending` executes
  the queue.  A caller-visible point where the queue has not yet run is a
  legitimate schedule of the thread pool.
-/

namespace CounterManager

/-- Outcome of evaluating `int(data.get('counter', 1))` on a parsed JSON
object, as in `get_next_counter` (counter_manager.py lines 383 and 389). -/
inductive CVal where
  /-- The object has no `counter` key: `data.get` yields the default 1. -/
  | missing
  /-- The value is a Python `int` equal to `n`; `int(v)` returns it. -/
  | intVal (n : Int)
  /-- The value is not an `int` but `int(v)` succeeds with `n`
      (numeric string, float, bool). -/
  | coercible (n : Int)
  /-- `int(v)` raises `ValueError` (non-numeric string), which the primary
      branch catches. -/
  | valueErr
  /-- Evaluation raises an exception outside the caught tuple
      (`TypeError` for `None`/containers, `AttributeError` for non-dict
      JSON); it propagates out of `get_next_counter`. -/
  | otherErr
deriving DecidableEq

/-- Observable content of one counter file. -/
inductive CFile where
  /-- The file does not exist (`FileNotFoundError` on open). -/
  | absent
  /-- `json.load` raises `JSONDecodeError`. -/
  | malformed
  /-- Valid JSON object whose `counter` entry behaves as `v`. -/
  | valid (v : CVal)
deriving DecidableEq

/-- A counter file as written by the allocator itself:
`json.dump({'counter': n}, f)`. -/
def intactFile (n : Int) : CFile := .valid (.intVal n)

/-- The backup branch of `get_next_counter` (lines 386-389): executed
inside the `except` handler, so any exception raised here propagates
(`none`).  A missing backup leaves the already-assigned `counter = 1`. -/
def readBackupFallback : CFile → Option Int
  | .absent => some 1
  | .malformed => none
  | .valid .missing => some 1
  | .valid (.intVal n) => some n
  | .valid (.coercible n) => some n
  | .valid .valueErr => none
  | .valid .otherErr => none

/-- The read phase of `get_next_counter` (lines 377-389): `counter = 1`;
if the primary file exists, parse it and take `int(data.get('counter', 1))`;
on `JSONDecodeError`/`ValueError`/`KeyError` fall back to the backup file;
`none` models an exception propagating to the caller. -/
def readCurrent (primary backup : CFile) : Option Int :=
  match primary with
  | .absent => some 1
  | .malformed => readBackupFallback backup
  | .valid .missing => some 1
  | .valid (.intVal n) => some n
  | .valid (.coercible n) => some n
  | .valid .valueErr => readBackupFallback backup
  | .valid .otherErr => none

/-- One counter file read as the specification words it (the rules of
`_read_counter_file`, lines 188-202): usable iff the file parses and the
`counter` entry is an `int` instance strictly greater than zero. -/
def usableCounter : CFile → Option Int
  | .valid (.intVal n) => if 0 < n then some n else none
  | _ => none

/-- The read-fallback behaviour exactly as the specification states it:
primary if usable, else backup if usable, else current value zero.
Second definition kept for comparison with `readCurrent`. -/
def readCurrentSpec (primary backup : CFile) : Int :=
  match usableCounter primary with
  | some n => n
  | none =>
    match usableCounter backup with
    | some n => n
    | none => 0

/-- Observation made by one iteration of the `_acquire_lock` loop:
either no lock file exists, or it exists with the given age in seconds
(`time.time() - st_mtime`). -/
inductive LockObs where
  | free
  | held (age : ℚ)
deriving DecidableEq

/-- Result of one loop iteration of `_acquire_lock`. -/
inductive AttemptResult where
  /-- The lock file was created and `True` returned; `removedStale`
      records whether a stale lock file was unlinked first. -/
  | acquired (removedStale : Bool)
  /-- The lock exists and is not stale: increment `attempt`, sleep 100ms,
      retry. -/
  | blocked
deriving DecidableEq

/-- One iteration of the `_acquire_lock` loop body (lines 282-296), paired
with the lock-file observation a bystander would make right after it:
a fresh (age ≤ 30s) lock is left untouched; a stale (age > 30s) lock is
unlinked and replaced by our own fresh lock. -/
def lockAttemptStep : LockObs → AttemptResult × LockObs
  | .free => (.acquired false, .held 0)
  | .held age => if 30 < age then (.acquired true, .held 0) else (.blocked, .held age)

/-- The acquisition outcome of one loop iteration. -/
def lockAttempt (o : LockObs) : AttemptResult := (lockAttemptStep o).1

/-- The `while attempt < max_attempts` loop of `_acquire_lock`: `env i` is
the lock observation at the iteration with `attempt = i` (the counter is
incremented exactly on blocked iterations).  Returns the boolean result
and the list of sleep durations in milliseconds (`time.sleep(0.1)` before
every retry, including the one that exhausts the budget). -/
def acquireLoop (env : ℕ → LockObs) : ℕ → ℕ → Bool × List ℕ
  | _, 0 => (false, [])
  | i, fuel + 1 =>
    match lockAttempt (env i) with
    | .acquired _ => (true, [])
    | .blocked =>
      let rest := acquireLoop env (i + 1) fuel
      (rest.1, 100 :: rest.2)

/-- `_acquire_lock` with its default `max_attempts = 5`. -/
def acquireLock (env : ℕ → LockObs) : Bool × List ℕ := acquireLoop env 0 5

/-- Error outcomes of `get_next_counter`. -/
inductive CounterError where
  /-- The `RuntimeError` raised when `_acquire_lock` returns `False`. -/
  | lockTimeout
  /-- An exception escaping the read phase (after the `finally` releases
      the lock). -/
  | uncaughtRead
deriving DecidableEq

/-- `CounterManager.get_next_counter` (lines 332-405): acquire the lock
(raising on failure), read the current counter, increment, write the
backup file then the primary file, return the pre-increment value. -/
def get_next_counter (env : ℕ → LockObs) (primary backup : CFile) :
    Except CounterError (Int × CFile × CFile) :=
  if (acquireLock env).1 then
    match readCurrent primary backup with
    | some c => .ok (c, intactFile (c + 1), intactFile (c + 1))
    | none => .error .uncaughtRead
  else
    .error .lockTimeout

/-- Events affecting the counter files between and during allocator calls.
Crash events model the process dying at the named point of
`get_next_counter`; corruption events model a file damaged in place (it
still exists but no longer parses); loss events model a file disappearing
altogether. -/
inductive CEvent where
  /-- A call that runs to completion (if the read raises, no write happens
      and no value is returned). -/
  | call
  /-- The process dies before the backup write. -/
  | crashBefore
  /-- The process dies after writing the backup, before writing the
      primary (line 397 of counter_manager.py). -/
  | crashBetween
  /-- The process dies midway through the backup write, leaving it
      unparseable. -/
  | crashDuringBackup
  /-- The process dies midway through the primary write: backup written,
      primary left unparseable. -/
  | crashDuringPrimary
  /-- The primary file is damaged in place. -/
  | corruptPrimary
  /-- The backup file is damaged in place. -/
  | corruptBackup
  /-- The primary file is deleted or lost. -/
  | losePrimary
  /-- The backup file is deleted or lost. -/
  | loseBackup
deriving DecidableEq

/-- The two counter files. -/
structure CState where
  primary : CFile
  backup : CFile
deriving DecidableEq

/-- Before the first run nothing exists. -/
def initialCState : CState := ⟨.absent, .absent⟩

/-- Effect of one event: the resulting state and the value returned to the
caller, if any. -/
def runEvent (s : CState) : CEvent → CState × Option Int
  | .call =>
    match readCurrent s.primary s.backup with
    | some c => (⟨intactFile (c + 1), intactFile (c + 1)⟩, some c)
    | none => (s, none)
  | .crashBefore => (s, none)
  | .crashBetween =>
    match readCurrent s.primary s.backup with
    | some c => (⟨s.primary, intactFile (c + 1)⟩, none)
    | none => (s, none)
  | .crashDuringBackup =>
    match readCurrent s.primary s.backup with
    | some _ => (⟨s.primary, .malformed⟩, none)
    | none => (s, none)
  | .crashDuringPrimary =>
    match readCurrent s.primary s.backup with
    | some c => (⟨.malformed, intactFile (c + 1)⟩, none)
    | none => (s, none)
  | .corruptPrimary => (⟨.malformed, s.backup⟩, none)
  | .corruptBackup => (⟨s.primary, .malformed⟩, none)
  | .losePrimary => (⟨.absent, s.backup⟩, none)
  | .loseBackup => (⟨s.primary, .absent⟩, none)

/-- Run a sequence of events, collecting the returned values in order. -/
def runTrace : CState → List CEvent → CState × List Int
  | s, [] => (s, [])
  | s, e :: es =>
    let step := runEvent s e
    let rest := runTrace step.1 es
    (rest.1, step.2.toList ++ rest.2)

/-- The values returned along a trace started from the fresh state. -/
def returnsOf (es : List CEvent) : List Int := (runTrace initialCState es).2

/-- The states visited along a trace (initial state included). -/
def statesAlong : CState → List CEvent → List CState
  | s, [] => [s]
  | s, e :: es => s :: statesAlong (runEvent s e).1 es

/-- Whether a counter file is intact: it exists and holds what the
allocator itself writes. -/
def isIntact : CFile → Bool
  | .valid (.intVal _) => true
  | _ => false

/-- The premise of the monotonicity claim, formalised: at every point of
the trace at least one of the two files is intact, except in the fresh
state where neither has been created yet. -/
def oneFileIntactAlong (es : List CEvent) : Bool :=
  (statesAlong initialCState es).all fun s =>
    isIntact s.primary || isIntact s.backup || decide (s = initialCState)

/-- A file content is one of the shapes reachable without external
tampering beyond in-place corruption: absent, unparseable, or written by
the allocator. -/
def fileShapeOK (f : CFile) : Prop :=
  f = .absent ∨ f = .malformed ∨ ∃ k, f = intactFile k

/-- Invariant tying the file state to `M`, the largest value returned so
far (0 when nothing has been returned yet). -/
structure CInv (s : CState) (M : Int) : Prop where
  shapeP : fileShapeOK s.primary
  shapeB : fileShapeOK s.backup
  boundP : ∀ k, s.primary = intactFile k → M + 1 ≤ k
  boundB : ∀ k, s.backup = intactFile k → M + 1 ≤ k
  absP : s.primary = .absent → M = 0
  absB : s.backup = .absent → M = 0
  nonneg : 0 ≤ M

/-- An environment in which the lock file is always present and fresh. -/
def alwaysBusy : ℕ → LockObs := fun _ => .held 5

end CounterManager

namespace InvoiceModel

/-- A Python `Decimal` value `c / 10 ^ e`: integer coefficient (sign
included) and number of fractional digits.  All decimals arising in the
program have non-negative exponent.  Distinct pairs have distinct
canonical strings (`str(Decimal('2.50'))` keeps the trailing zero), and
`Decimal.__eq__` compares values, so string equality is structural
equality here and value equality is `pdValEq`. -/
structure PyDecimal where
  c : Int
  e : Nat
deriving DecidableEq

/-- Exact `Decimal` multiplication: coefficients multiply, exponents add. -/
def pdMul (a b : PyDecimal) : PyDecimal := ⟨a.c * b.c, a.e + b.e⟩

/-- Exact `Decimal` addition: pad to the larger exponent. -/
def pdAdd (a b : PyDecimal) : PyDecimal :=
  ⟨a.c * 10 ^ (max a.e b.e - a.e) + b.c * 10 ^ (max a.e b.e - b.e), max a.e b.e⟩

/-- The integer 0 that Python's `sum` starts from. -/
def pdZero : PyDecimal := ⟨0, 0⟩

/-- The literal `Decimal('0.22')` (22% Italian VAT). -/
def vatRate : PyDecimal := ⟨22, 2⟩

/-- `Decimal.__eq__`: numeric value equality. -/
def pdValEq (a b : PyDecimal) : Bool := decide (a.c * 10 ^ b.e = b.c * 10 ^ a.e)

/-- `Decimal.__lt__`: numeric value comparison. -/
def pdLtPy (a b : PyDecimal) : Bool := decide (a.c * 10 ^ b.e < b.c * 10 ^ a.e)

/-- `Decimal.__le__`: numeric value comparison. -/
def pdLePy (a b : PyDecimal) : Bool := decide (a.c * 10 ^ b.e ≤ b.c * 10 ^ a.e)

/-- A Python `datetime`: calendar date plus time of day in seconds
(microseconds are not modelled; they are dropped by serialization exactly
like the rest of the time component). -/
structure PyDateTime where
  year : Nat
  month : Nat
  day : Nat
  secondsOfDay : Nat
deriving DecidableEq

/-- A date-only value, as stored by `strftime('%Y-%m-%d')`. -/
structure PyDate where
  year : Nat
  month : Nat
  day : Nat
deriving DecidableEq

/-- `InvoiceItem` (invoice.py lines 77-132). -/
structure InvoiceItem where
  description : String
  quantity : PyDecimal
  price : PyDecimal
  total : PyDecimal
deriving DecidableEq

/-- The `InvoiceItem` constructor with `__post_init__`: `total` defaults
to `quantity * price` when not supplied. -/
def mkInvoiceItem (description : String) (quantity price : PyDecimal)
    (total : Option PyDecimal) : InvoiceItem :=
  ⟨description, quantity, price, total.getD (pdMul quantity price)⟩

/-- Whether a character is stripped by Python `str.strip()` (space, tab,
newline, carriage return; the rarer whitespace code points do not occur in
this development). -/
def isWsChar (ch : Char) : Bool :=
  ch.toNat == 32 || ch.toNat == 9 || ch.toNat == 10 || ch.toNat == 13

/-- Drop leading stripped characters. -/
def dropWs : List Char → List Char
  | [] => []
  | ch :: t => if isWsChar ch then dropWs t else ch :: t

/-- Python `str.strip()`. -/
def pyStrip (s : String) : String :=
  String.mk ((dropWs (dropWs s.data).reverse).reverse)

/-- `InvoiceItem.validate`: non-blank description (after `strip()`),
`quantity > 0`, `price >= 0`. -/
def InvoiceItem.validate (it : InvoiceItem) : Bool :=
  !(pyStrip it.description == "") && pdLtPy pdZero it.quantity && pdLePy pdZero it.price

/-- `Invoice` (invoice.py lines 134-203). -/
structure Invoice where
  invoice_number : String
  date : PyDateTime
  items : List InvoiceItem
  customer_name : Option String := none
  customer_vat : Option String := none
  customer_sdi : Option String := none
  customer_street : Option String := none
  customer_email : Option String := none
  notes : Option String := none
  total_amount : PyDecimal
  vat_amount : PyDecimal
deriving DecidableEq

/-- `sum(item.total for item in items)`, starting from the integer 0. -/
def sumItemTotals (items : List InvoiceItem) : PyDecimal :=
  items.foldl (fun acc it => pdAdd acc it.total) pdZero

/-- The `Invoice` constructor with `__post_init__`: `total_amount`
defaults to the sum of item totals, `vat_amount` to
`total_amount * Decimal('0.22')`. -/
def mkInvoice (invoice_number : String) (date : PyDateTime)
    (items : List InvoiceItem)
    (customer_name customer_vat customer_sdi customer_street customer_email
      notes : Option String)
    (total_amount vat_amount : Option PyDecimal) : Invoice :=
  let t := total_amount.getD (sumItemTotals items)
  { invoice_number := invoice_number, date := date, items := items
    customer_name := customer_name, customer_vat := customer_vat
    customer_sdi := customer_sdi, customer_street := customer_street
    customer_email := customer_email, notes := notes
    total_amount := t, vat_amount := vat_amount.getD (pdMul t vatRate) }

/-- `Invoice.validate`: non-blank invoice number, at least one item,
every item valid. -/
def Invoice.validate (inv : Invoice) : Bool :=
  !(pyStrip inv.invoice_number == "") && decide (0 < inv.items.length) &&
    inv.items.all InvoiceItem.validate

/-- Elementwise Python `==` on item lists. -/
def listItemEqPy : List InvoiceItem → List InvoiceItem → Bool
  | [], [] => true
  | x :: xs, y :: ys =>
    (x.description == y.description) && pdValEq x.quantity y.quantity &&
      pdValEq x.price y.price && pdValEq x.total y.total && listItemEqPy xs ys
  | _, _ => false

/-- The dataclass `__eq__` on `Invoice`: fields compared with Python `==`
(value equality on decimals, exact equality on datetimes and strings). -/
def invoiceEqPy (a b : Invoice) : Bool :=
  (a.invoice_number == b.invoice_number) && decide (a.date = b.date) &&
    listItemEqPy a.items b.items &&
    decide (a.customer_name = b.customer_name) &&
    decide (a.customer_vat = b.customer_vat) &&
    decide (a.customer_sdi = b.customer_sdi) &&
    decide (a.customer_street = b.customer_street) &&
    decide (a.customer_email = b.customer_email) &&
    decide (a.notes = b.notes) &&
    pdValEq a.total_amount b.total_amount && pdValEq a.vat_amount b.vat_amount

/-- One element of the `items` array in the stored JSON document; the
decimals stand for their canonical strings (`str` on `PyDecimal` data is
injective, and `Decimal(str(d))` restores `d` exactly). -/
structure ItemDict where
  description : String
  quantity : PyDecimal
  price : PyDecimal
  total : PyDecimal
deriving DecidableEq

/-- A parsed invoice document as produced by `Invoice.to_dict` (the JSON
shape of §6 of the specification).  The `date` field holds only the
calendar date: `to_dict` serializes with `strftime('%Y-%m-%d')`. -/
structure DocDict where
  invoice_number : String
  date : PyDate
  customer_name : Option String
  customer_vat : Option String
  customer_sdi : Option String
  customer_street : Option String
  customer_email : Option String
  items : List ItemDict
  notes : Option String
  total_amount : PyDecimal
  vat_amount : PyDecimal
deriving DecidableEq

/-- `Invoice.to_dict` (invoice.py lines 205-227): the date keeps only
`%Y-%m-%d`; decimals are stored as their canonical strings. -/
def to_dict (inv : Invoice) : DocDict :=
  { invoice_number := inv.invoice_number
    date := ⟨inv.date.year, inv.date.month, inv.date.day⟩
    customer_name := inv.customer_name
    customer_vat := inv.customer_vat
    customer_sdi := inv.customer_sdi
    customer_street := inv.customer_street
    customer_email := inv.customer_email
    items := inv.items.map fun it => ⟨it.description, it.quantity, it.price, it.total⟩
    notes := inv.notes
    total_amount := inv.total_amount
    vat_amount := inv.vat_amount }

/-- `Invoice.from_dict` (invoice.py lines 229-261): a date-only string
parses with `strptime('%Y-%m-%d')` to midnight; decimals restore
exactly. -/
def from_dict (d : DocDict) : Invoice :=
  { invoice_number := d.invoice_number
    date := ⟨d.date.year, d.date.month, d.date.day, 0⟩
    items := d.items.map fun it => ⟨it.description, it.quantity, it.price, it.total⟩
    customer_name := d.customer_name
    customer_vat := d.customer_vat
    customer_sdi := d.customer_sdi
    customer_street := d.customer_street
    customer_email := d.customer_email
    notes := d.notes
    total_amount := d.total_amount
    vat_amount := d.vat_amount }

/-- The invoice with its date truncated to midnight, which is what a
save/load round trip produces. -/
def dateTruncated (inv : Invoice) : Invoice :=
  { inv with date := ⟨inv.date.year, inv.date.month, inv.date.day, 0⟩ }

end InvoiceModel

namespace StorageManager

open InvoiceModel

/-- Zero-padded decimal rendering of a natural number (for `%Y`, `%m`,
`%d`, `%H`, `%M`, `%S` fields). -/
def padNum (width n : Nat) : String :=
  let s := toString n
  String.mk (List.replicate (width - s.length) '0') ++ s

/-- `strftime('%Y-%m-%d')` rendering of a stored date. -/
def dateOnlyStr (d : PyDate) : String :=
  padNum 4 d.year ++ "-" ++ padNum 2 d.month ++ "-" ++ padNum 2 d.day

/-- `datetime.isoformat()`: the date, `T`, then `HH:MM:SS` (microseconds
are not modelled). -/
def isoformatStr (d : PyDateTime) : String :=
  padNum 4 d.year ++ "-" ++ padNum 2 d.month ++ "-" ++ padNum 2 d.day ++ "T" ++
    padNum 2 (d.secondsOfDay / 3600) ++ ":" ++ padNum 2 (d.secondsOfDay % 3600 / 60) ++
    ":" ++ padNum 2 (d.secondsOfDay % 60)

/-- Canonical `str` of a `Decimal` with non-negative fractional digits;
injective on `PyDecimal`. -/
def decimalStr (d : PyDecimal) : String :=
  let a := d.c.natAbs
  let sgn := if d.c < 0 then "-" else ""
  if d.e = 0 then sgn ++ toString a
  else sgn ++ toString (a / 10 ^ d.e) ++ "." ++ padNum d.e (a % 10 ^ d.e)

/-- One entry of the in-memory `_index`.  `_update_index` stores
`customer_name or ''` and `notes or ''` (always a string), while
`_build_index` stores `data.get(..., '')`, which is the stored value and
may be `None`; hence the `Option`. -/
structure IndexEntry where
  invoice_number : String
  customer_name : Option String
  date : String
  total_amount : String
  notes : Option String
deriving DecidableEq

/-- The `_update_index` entry for a just-saved invoice (storage_manager.py
lines 130-139): full `isoformat` date, `str` of the total. -/
def indexEntryOf (inv : Invoice) : IndexEntry :=
  { invoice_number := inv.invoice_number
    customer_name := some (inv.customer_name.getD "")
    date := isoformatStr inv.date
    total_amount := decimalStr inv.total_amount
    notes := some (inv.notes.getD "") }

/-- The `_build_index` entry read back from a stored document (lines
115-126): the stored date-only string and stored decimal string.
Documents in the model always parse, so none is skipped. -/
def indexEntryOfDoc (d : DocDict) : IndexEntry :=
  { invoice_number := d.invoice_number
    customer_name := d.customer_name
    date := dateOnlyStr d.date
    total_amount := decimalStr d.total_amount
    notes := d.notes }

/-- One backup file `{stem}_{YYYYMMDD_HHMMSS}.json`: its stem, its
modification time (a logical clock; strictly increasing in the model, as
the code's second-granularity timestamps are for distinct saves), the
backed-up document, and the `_numeric_hash` value stored inside it
(kept as the hashed content; it is never read back). -/
structure BackupFile where
  stem : String
  time : Nat
  data : DocDict
  storedSig : List PyDecimal
deriving DecidableEq

/-- A task submitted to the `ThreadPoolExecutor`. -/
inductive BgTask where
  /-- `_build_index`, submitted by `__init__`. -/
  | buildIndex
  /-- `_update_index(invoice)`, submitted by `save_invoice`. -/
  | updateIndex (inv : Invoice)
  /-- `_clean_old_backups(stem)`, submitted by `_create_backup`. -/
  | cleanBackups (stem : String)
deriving DecidableEq

/-- The whole state of one `StorageManager`: the invoice directory (file
stem to parsed document), the backup directory, the in-memory index, the
`lru_cache` of `load_invoice` (most recent first; failed loads are cached
too, as `lru_cache` caches `None` results), the queue of not-yet-run
background tasks, and a logical clock for backup mtimes. -/
structure StoreState where
  files : List (String × DocDict)
  backups : List BackupFile
  index : List (String × IndexEntry)
  cache : List (String × Option Invoice)
  pending : List BgTask
  clock : Nat
deriving DecidableEq

/-- Python `dict` assignment: replace in place if the key exists,
append otherwise. -/
def setKey {α : Type} (l : List (String × α)) (k : String) (v : α) :
    List (String × α) :=
  if (l.lookup k).isSome then
    l.map fun p => if p.1 = k then (k, v) else p
  else l ++ [(k, v)]

/-- Python `dict.pop(k, None)` / file deletion: drop the key. -/
def removeKey {α : Type} (l : List (String × α)) (k : String) :
    List (String × α) :=
  l.filter fun p => !(decide (p.1 = k))

/-- The three decimal strings contributed by one item to the hashed
content. -/
def itemSig (it : ItemDict) : List PyDecimal := [it.quantity, it.price, it.total]

/-- Lexicographic comparison of code points, as Python `<` on `str`
(written out because `String.lt` does not reduce in the kernel). -/
def charListLt : List Char → List Char → Bool
  | [], [] => false
  | [], _ :: _ => true
  | _ :: _, [] => false
  | x :: xs, y :: ys =>
    if x.toNat < y.toNat then true
    else if y.toNat < x.toNat then false
    else charListLt xs ys

/-- Python `str.__lt__`. -/
def strLt (a b : String) : Bool := charListLt a.data b.data

/-- Insert into a list sorted by ascending description. -/
def insertByDesc (x : ItemDict) : List ItemDict → List ItemDict
  | [] => [x]
  | y :: ys => if strLt y.description x.description then y :: insertByDesc x ys
               else x :: y :: ys

/-- `sorted(items, key=lambda x: x['description'])`. -/
def sortItemsByDesc : List ItemDict → List ItemDict
  | [] => []
  | x :: xs => insertByDesc x (sortItemsByDesc xs)

/-- `_calculate_numeric_hash` (lines 141-165) up to the injective SHA-256
rendering: the sequence of decimal values whose canonical strings, joined
with `|`, are hashed — invoice total, VAT, then quantity, price and total
of each item with the items sorted by description.  Two documents get the
same hash exactly when these sequences coincide (the `_numeric_hash` key
added to backup copies is ignored by the recomputation). -/
def numericSig (d : DocDict) : List PyDecimal :=
  d.total_amount :: d.vat_amount ::
    ((sortItemsByDesc d.items).map itemSig).flatten

/-- `_should_create_backup` (lines 202-217): back up when no previous
backup exists or the numeric hashes differ. -/
def should_create_backup (current : DocDict) (latest : Option DocDict) : Bool :=
  match latest with
  | none => true
  | some lb => !(decide (numericSig current = numericSig lb))

/-- The most recent backup for a stem
(`sorted(glob, key=mtime, reverse=True)[0]`; ties cannot arise with the
strictly increasing clock). -/
def latestBackup (backups : List BackupFile) (stem : String) : Option BackupFile :=
  (backups.filter fun b => b.stem == stem).foldl
    (fun acc b =>
      match acc with
      | none => some b
      | some a => if a.time < b.time then some b else some a)
    none

/-- `_create_backup` (lines 219-266): read the document currently on
disk, compare its numeric signature with the most recent backup's, and
append a new timestamped backup of the on-disk content only when the
signature differs or no backup exists, then submit background pruning.
`_validate_invoice_math` only logs; the exception fallback path cannot
trigger in the model because stored documents always parse. -/
def create_backup (s : StoreState) (stem : String) : StoreState :=
  match s.files.lookup stem with
  | none => s
  | some cur =>
    if should_create_backup cur ((latestBackup s.backups stem).map BackupFile.data) then
      { s with backups := s.backups ++ [⟨stem, s.clock, cur, numericSig cur⟩]
               pending := s.pending ++ [.cleanBackups stem]
               clock := s.clock + 1 }
    else { s with clock := s.clock + 1 }

/-- Sorted insertion by descending mtime. -/
def insertByTimeDesc (x : BackupFile) : List BackupFile → List BackupFile
  | [] => [x]
  | y :: ys => if x.time > y.time then x :: y :: ys else y :: insertByTimeDesc x ys

/-- Sort backups by descending mtime. -/
def sortTimeDesc : List BackupFile → List BackupFile
  | [] => []
  | x :: xs => insertByTimeDesc x (sortTimeDesc xs)

/-- `_clean_old_backups` (lines 268-281): keep only the 5 most recent
backups of the stem; backups of other stems are untouched. -/
def clean_old_backups (backups : List BackupFile) (stem : String) (keep : Nat) :
    List BackupFile :=
  let kept := (sortTimeDesc (backups.filter fun b => b.stem == stem)).take keep
  backups.filter fun b => !(b.stem == stem) || decide (b ∈ kept)

/-- `save_invoice` (lines 283-299): back up the existing file if any,
overwrite the document, and submit the index update to the background
pool; returns the file path (the stem plus extension). -/
def save_invoice (s : StoreState) (inv : Invoice) : StoreState × String :=
  let stem := inv.invoice_number
  let s1 := if (s.files.lookup stem).isSome then create_backup s stem else s
  ({ s1 with files := setKey s1.files stem (to_dict inv)
             pending := s1.pending ++ [.updateIndex inv] },
   stem ++ ".json")

/-- `load_invoice` (lines 301-311) with its `lru_cache(maxsize=100)`:
a cache hit returns the memoized result (moving it to most-recent); a
miss reads and parses the file (`none` when absent) and caches the
result, evicting the least recent entry beyond 100. -/
def load_invoice (s : StoreState) (num : String) : Option Invoice × StoreState :=
  match s.cache.lookup num with
  | some r => (r, { s with cache := (num, r) :: removeKey s.cache num })
  | none =>
    let r := (s.files.lookup num).map from_dict
    (r, { s with cache := ((num, r) :: s.cache).take 100 })

/-- `delete_invoice` (lines 345-365): `False` when no document exists;
otherwise run the backup routine, remove the file, pop the index entry
(synchronously), clear the whole `lru_cache`, and return `True`. -/
def delete_invoice (s : StoreState) (num : String) : Bool × StoreState :=
  if (s.files.lookup num).isSome then
    let s1 := create_backup s num
    (true, { s1 with files := removeKey s1.files num
                     index := removeKey s1.index num
                     cache := [] })
  else (false, s)

/-- `list_invoices` (lines 340-343): the index keys; `search_invoices`
and `load_all_invoices` read the same `_index` under the same lock. -/
def list_invoices (s : StoreState) : List String := s.index.map Prod.fst

/-- Execution of one background task. -/
def applyTask (s : StoreState) : BgTask → StoreState
  | .buildIndex => { s with index := s.files.map fun p => (p.1, indexEntryOfDoc p.2) }
  | .updateIndex inv =>
    { s with index := setKey s.index inv.invoice_number (indexEntryOf inv) }
  | .cleanBackups stem => { s with backups := clean_old_backups s.backups stem 5 }

/-- Drain the background queue in submission order (one legitimate
schedule of the worker pool). -/
def runPending (s : StoreState) : StoreState :=
  s.pending.foldl applyTask { s with pending := [] }

/-- A freshly constructed `StorageManager` over an empty data directory:
`__init__` submits `_build_index` to the pool. -/
def initStore : StoreState :=
  { files := [], backups := [], index := [], cache := [], pending := [.buildIndex]
    clock := 0 }

end StorageManager

namespace Samples

open InvoiceModel

/-- A line item: 2 × 10.00. -/
def itemA : InvoiceItem := mkInvoiceItem "Item A" ⟨2, 0⟩ ⟨1000, 2⟩ none

/-- A valid invoice whose date carries a time-of-day component (10:00). -/
def invLate : Invoice :=
  mkInvoice "R-1" ⟨2024, 3, 5, 36000⟩ [itemA] (some "ACME") none none none none
    (some "a note") none none

/-- The same invoice but dated at midnight. -/
def invMidnight : Invoice :=
  mkInvoice "R-2" ⟨2024, 3, 5, 0⟩ [itemA] (some "ACME") none none none none
    (some "a note") none none

/-- An invoice with number `A` used by the index-freshness claims. -/
def invA : Invoice :=
  mkInvoice "A" ⟨2024, 1, 1, 0⟩ [itemA] none none none none none none none none

/-- Invoice `B` at price 10.00, its document, and the same invoice with
only the notes changed and with the price changed. -/
def invB10 : Invoice :=
  mkInvoice "B" ⟨2024, 1, 2, 0⟩ [mkInvoiceItem "W" ⟨1, 0⟩ ⟨1000, 2⟩ none]
    none none none none none none none none

/-- `B` with only the notes changed (same numeric content). -/
def invB10n : Invoice :=
  mkInvoice "B" ⟨2024, 1, 2, 0⟩ [mkInvoiceItem "W" ⟨1, 0⟩ ⟨1000, 2⟩ none]
    none none none none none (some "edited") none none

/-- `B` with the item price changed to 20.00. -/
def invB20 : Invoice :=
  mkInvoice "B" ⟨2024, 1, 2, 0⟩ [mkInvoiceItem "W" ⟨1, 0⟩ ⟨2000, 2⟩ none]
    none none none none none none none none

/-- The stored document of `invB10`. -/
def docB10 : DocDict := to_dict invB10

/-- A store in the steady state for `B`: the document on disk and one
backup whose numeric signature matches it. -/
def storeSteady : StorageManager.StoreState :=
  { files := [("B", docB10)]
    backups := [⟨"B", 0, docB10, StorageManager.numericSig docB10⟩]
    index := [("B", StorageManager.indexEntryOf invB10)]
    cache := []
    pending := []
    clock := 1 }

/-- A store with documents `A` and `B` on disk and both present in the
read cache. -/
def storeCached : StorageManager.StoreState :=
  { files := [("A", to_dict invA), ("B", docB10)]
    backups := []
    index := [("A", StorageManager.indexEntryOf invA),
              ("B", StorageManager.indexEntryOf invB10)]
    cache := [("A", some invA), ("B", some invB10)]
    pending := []
    clock := 0 }

/-- An invalid invoice: empty items list. -/
def invBad : Invoice :=
  mkInvoice "BAD" ⟨2024, 1, 3, 0⟩ [] none none none none none none none none

end Samples

-- ===== THEOREMS =====

namespace StorageManager

theorem lookup_cons_self {α : Type} (a : String) (b : α) (t : List (String × α)) :
    ((a, b) :: t).lookup a = some b := by
  simp [List.lookup]

theorem lookup_cons_ne {α : Type} (a : String) (b : α) (t : List (String × α))
    {k : String} (h : ¬ k = a) : ((a, b) :: t).lookup k = t.lookup k := by
  have hb : (k == a) = false := beq_eq_false_iff_ne.mpr h
  simp [List.lookup, hb]

theorem lookup_append_single {α : Type} (l : List (String × α)) (k : String) (v : α)
    (h : l.lookup k = none) : (l ++ [(k, v)]).lookup k = some v := by
  induction l with
  | nil => simp [List.lookup]
  | cons p t ih =>
    obtain ⟨a, b⟩ := p
    by_cases hk : k = a
    · subst hk
      rw [lookup_cons_self] at h
      simp at h
    · rw [lookup_cons_ne a b t hk] at h
      rw [List.cons_append, lookup_cons_ne a b _ hk]
      exact ih h

theorem lookup_map_replace {α : Type} (l : List (String × α)) (k : String) (v : α) :
    (l.map fun p => if p.1 = k then (k, v) else p).lookup k =
      (l.lookup k).map fun _ => v := by
  induction l with
  | nil => simp [List.lookup]
  | cons p t ih =>
    obtain ⟨a, b⟩ := p
    by_cases hk : a = k
    · subst hk
      simp only [List.map_cons, if_true]
      rw [lookup_cons_self, lookup_cons_self]
      rfl
    · have hk2 : ¬ k = a := fun hq => hk hq.symm
      simp only [List.map_cons, if_neg hk]
      rw [lookup_cons_ne a b _ hk2, lookup_cons_ne a b t hk2]
      exact ih

theorem lookup_setKey_self {α : Type} (l : List (String × α)) (k : String) (v : α) :
    (setKey l k v).lookup k = some v := by
  unfold setKey
  by_cases h : (l.lookup k).isSome
  · rw [if_pos h, lookup_map_replace]
    obtain ⟨w, hw⟩ := Option.isSome_iff_exists.mp h
    rw [hw]
    rfl
  · rw [if_neg h]
    exact lookup_append_single l k v (Option.not_isSome_iff_eq_none.mp h)

theorem mem_keys_of_lookup {α : Type} {l : List (String × α)} {k : String} {v : α}
    (h : l.lookup k = some v) : k ∈ l.map Prod.fst := by
  induction l with
  | nil => simp [List.lookup] at h
  | cons p t ih =>
    obtain ⟨a, b⟩ := p
    by_cases hk : k = a
    · simp [hk]
    · rw [lookup_cons_ne a b t hk] at h
      simpa using Or.inr (ih h)

theorem lookup_removeKey_self {α : Type} (l : List (String × α)) (k : String) :
    (removeKey l k).lookup k = none := by
  induction l with
  | nil => rfl
  | cons p t ih =>
    obtain ⟨a, b⟩ := p
    unfold removeKey at ih ⊢
    rw [List.filter_cons]
    by_cases hk : a = k
    · rw [if_neg (by simp [hk])]
      exact ih
    · rw [if_pos (by simp [hk])]
      rw [lookup_cons_ne a b _ fun hq => hk hq.symm]
      exact ih

theorem lookup_removeKey_ne {α : Type} (l : List (String × α)) {k q : String}
    (h : q ≠ k) : (removeKey l k).lookup q = l.lookup q := by
  induction l with
  | nil => rfl
  | cons p t ih =>
    obtain ⟨a, b⟩ := p
    unfold removeKey at ih ⊢
    rw [List.filter_cons]
    by_cases hk : a = k
    · rw [if_neg (by simp [hk])]
      rw [lookup_cons_ne a b t (by rw [hk]; exact h)]
      exact ih
    · rw [if_pos (by simp [hk])]
      by_cases hq : q = a
      · subst hq
        rw [lookup_cons_self, lookup_cons_self]
      · rw [lookup_cons_ne a b _ hq, lookup_cons_ne a b t hq]
        exact ih

theorem create_backup_files (s : StoreState) (stem : String) :
    (create_backup s stem).files = s.files := by
  unfold create_backup
  cases s.files.lookup stem with
  | none => rfl
  | some cur =>
    by_cases h : should_create_backup cur
        ((latestBackup s.backups stem).map BackupFile.data) = true
    · simp only [h, if_true]
    · simp only [Bool.not_eq_true] at h
      simp only [h, Bool.false_eq_true, if_false]

theorem create_backup_cache (s : StoreState) (stem : String) :
    (create_backup s stem).cache = s.cache := by
  unfold create_backup
  cases s.files.lookup stem with
  | none => rfl
  | some cur =>
    by_cases h : should_create_backup cur
        ((latestBackup s.backups stem).map BackupFile.data) = true
    · simp only [h, if_true]
    · simp only [Bool.not_eq_true] at h
      simp only [h, Bool.false_eq_true, if_false]

theorem create_backup_index (s : StoreState) (stem : String) :
    (create_backup s stem).index = s.index := by
  unfold create_backup
  cases s.files.lookup stem with
  | none => rfl
  | some cur =>
    by_cases h : should_create_backup cur
        ((latestBackup s.backups stem).map BackupFile.data) = true
    · simp only [h, if_true]
    · simp only [Bool.not_eq_true] at h
      simp only [h, Bool.false_eq_true, if_false]

theorem save_invoice_files (s : StoreState) (inv : InvoiceModel.Invoice) :
    ((save_invoice s inv).1).files =
      setKey s.files inv.invoice_number (InvoiceModel.to_dict inv) := by
  unfold save_invoice
  by_cases h : (s.files.lookup inv.invoice_number).isSome
  · simp [h, create_backup_files]
  · simp [h]

theorem save_invoice_cache (s : StoreState) (inv : InvoiceModel.Invoice) :
    ((save_invoice s inv).1).cache = s.cache := by
  unfold save_invoice
  by_cases h : (s.files.lookup inv.invoice_number).isSome
  · simp [h, create_backup_cache]
  · simp [h]

theorem save_invoice_backups (s : StoreState) (inv : InvoiceModel.Invoice) :
    ((save_invoice s inv).1).backups =
      (if (s.files.lookup inv.invoice_number).isSome
        then create_backup s inv.invoice_number else s).backups := by
  unfold save_invoice
  by_cases h : (s.files.lookup inv.invoice_number).isSome
  · simp [h]
  · simp [h]

theorem save_invoice_pending (s : StoreState) (inv : InvoiceModel.Invoice) :
    ∃ l, ((save_invoice s inv).1).pending = l ++ [BgTask.updateIndex inv] := by
  unfold save_invoice
  by_cases h : (s.files.lookup inv.invoice_number).isSome
  · exact ⟨(create_backup s inv.invoice_number).pending, by simp [h]⟩
  · exact ⟨s.pending, by simp [h]⟩

end StorageManager

namespace CounterManager

theorem cinv_initial : CInv initialCState 0 := by
  refine ⟨Or.inl rfl, Or.inl rfl, ?_, ?_, fun _ => rfl, fun _ => rfl, le_refl 0⟩ <;>
    intro k h <;> simp [initialCState, intactFile] at h

theorem read_bound {s : CState} {M : Int} (hI : CInv s M) {c : Int}
    (hr : readCurrent s.primary s.backup = some c) : M + 1 ≤ c := by
  rcases hI.shapeP with hp | hp | ⟨k, hp⟩
  · rw [hp] at hr
    simp only [readCurrent, Option.some.injEq] at hr
    have := hI.absP hp
    omega
  · rw [hp] at hr
    simp only [readCurrent] at hr
    rcases hI.shapeB with hb | hb | ⟨k, hb⟩
    · rw [hb] at hr
      simp only [readBackupFallback, Option.some.injEq] at hr
      have := hI.absB hb
      omega
    · rw [hb] at hr
      simp [readBackupFallback] at hr
    · rw [hb] at hr
      simp only [intactFile, readBackupFallback, Option.some.injEq] at hr
      exact hr ▸ hI.boundB k hb
  · rw [hp] at hr
    simp only [intactFile, readCurrent, Option.some.injEq] at hr
    exact hr ▸ hI.boundP k hp

theorem intactFile_eq {k n : Int} (h : intactFile n = intactFile k) : n = k := by
  simpa [intactFile] using h

theorem cinv_step {s : CState} {M : Int} (hI : CInv s M) (e : CEvent)
    (hel : e ≠ .losePrimary) (heb : e ≠ .loseBackup) :
    CInv (runEvent s e).1 ((runEvent s e).2.getD M) ∧
      ∀ v, (runEvent s e).2 = some v → M < v := by
  cases e with
  | call =>
    cases hr : readCurrent s.primary s.backup with
    | none => simpa [runEvent, hr] using hI
    | some c =>
      have hc := read_bound hI hr
      simp only [runEvent, hr, Option.getD_some]
      have hsh : fileShapeOK (intactFile (c + 1)) := Or.inr (Or.inr ⟨c + 1, rfl⟩)
      refine ⟨⟨hsh, hsh, ?_, ?_, ?_, ?_, ?_⟩, ?_⟩
      · intro k hk
        have := intactFile_eq hk
        omega
      · intro k hk
        have := intactFile_eq hk
        omega
      · intro h
        simp [intactFile] at h
      · intro h
        simp [intactFile] at h
      · have := hI.nonneg; omega
      · intro v hv
        cases hv
        omega
  | crashBefore => simpa [runEvent] using hI
  | crashBetween =>
    cases hr : readCurrent s.primary s.backup with
    | none => simpa [runEvent, hr] using hI
    | some c =>
      have hc := read_bound hI hr
      simp only [runEvent, hr, Option.getD_none]
      refine ⟨⟨hI.shapeP, Or.inr (Or.inr ⟨c + 1, rfl⟩), hI.boundP, ?_, hI.absP, ?_,
        hI.nonneg⟩, ?_⟩
      · intro k hk
        have := intactFile_eq hk
        omega
      · intro h
        simp [intactFile] at h
      · intro v hv
        cases hv
  | crashDuringBackup =>
    cases hr : readCurrent s.primary s.backup with
    | none => simpa [runEvent, hr] using hI
    | some c =>
      simp only [runEvent, hr, Option.getD_none]
      refine ⟨⟨hI.shapeP, Or.inr (Or.inl rfl), hI.boundP, ?_, hI.absP, ?_, hI.nonneg⟩, ?_⟩
      · intro k hk
        simp [intactFile] at hk
      · intro h
        simp at h
      · intro v hv
        cases hv
  | crashDuringPrimary =>
    cases hr : readCurrent s.primary s.backup with
    | none => simpa [runEvent, hr] using hI
    | some c =>
      have hc := read_bound hI hr
      simp only [runEvent, hr, Option.getD_none]
      refine ⟨⟨Or.inr (Or.inl rfl), Or.inr (Or.inr ⟨c + 1, rfl⟩), ?_, ?_, ?_, ?_,
        hI.nonneg⟩, ?_⟩
      · intro k hk
        simp [intactFile] at hk
      · intro k hk
        have := intactFile_eq hk
        omega
      · intro h
        simp at h
      · intro h
        simp [intactFile] at h
      · intro v hv
        cases hv
  | corruptPrimary =>
    simp only [runEvent, Option.getD_none]
    refine ⟨⟨Or.inr (Or.inl rfl), hI.shapeB, ?_, hI.boundB, ?_, hI.absB, hI.nonneg⟩, ?_⟩
    · intro k hk
      simp [intactFile] at hk
    · intro h
      simp at h
    · intro v hv
      cases hv
  | corruptBackup =>
    simp only [runEvent, Option.getD_none]
    refine ⟨⟨hI.shapeP, Or.inr (Or.inl rfl), hI.boundP, ?_, hI.absP, ?_, hI.nonneg⟩, ?_⟩
    · intro k hk
      simp [intactFile] at hk
    · intro h
      simp at h
    · intro v hv
      cases hv
  | losePrimary => exact absurd rfl hel
  | loseBackup => exact absurd rfl heb

theorem mono_aux (es : List CEvent) :
    ∀ (s : CState) (M : Int), CInv s M →
      (∀ e ∈ es, e ≠ CEvent.losePrimary ∧ e ≠ CEvent.loseBackup) →
      List.Pairwise (· < ·) (runTrace s es).2 ∧ ∀ v ∈ (runTrace s es).2, M < v := by
  induction es with
  | nil => intro s M _ _; simp [runTrace]
  | cons e es ih =>
    intro s M hI hok
    obtain ⟨he, hes⟩ := List.forall_mem_cons.mp hok
    obtain ⟨hI', hret⟩ := cinv_step hI e he.1 he.2
    cases hr : (runEvent s e).2 with
    | none =>
      have := ih (runEvent s e).1 M (by simpa [hr] using hI') hes
      simpa [runTrace, hr] using this
    | some v =>
      have hMv : M < v := hret v hr
      obtain ⟨hpw, hgt⟩ := ih (runEvent s e).1 v (by simpa [hr] using hI') hes
      refine ⟨?_, ?_⟩ <;> simp only [runTrace, hr, Option.toList_some, List.singleton_append]
      · exact List.pairwise_cons.mpr ⟨fun u hu => hgt u hu, hpw⟩
      · intro u hu
        rcases List.mem_cons.mp hu with h | h
        · omega
        · exact lt_trans hMv (hgt u h)

/-- The acquisition loop when every consulted observation is a fresh lock:
all attempts block, each sleeping the constant 100ms. -/
theorem acquireLoop_allBlocked (env : ℕ → LockObs) :
    ∀ (fuel i : ℕ), (∀ j, j < fuel → lockAttempt (env (i + j)) = .blocked) →
      acquireLoop env i fuel = (false, List.replicate fuel 100) := by
  intro fuel
  induction fuel with
  | zero => intro i _; rfl
  | succ n ih =>
    intro i h
    have h0 : lockAttempt (env (i + 0)) = .blocked := h 0 (Nat.succ_pos n)
    rw [Nat.add_zero] at h0
    have hrest := ih (i + 1) fun j hj => by
      have := h (j + 1) (Nat.succ_lt_succ hj)
      rwa [show i + (j + 1) = i + 1 + j by omega] at this
    simp [acquireLoop, h0, hrest, List.replicate_succ]

end CounterManager

namespace InvoiceModel

theorem from_dict_to_dict (inv : Invoice) :
    from_dict (to_dict inv) = dateTruncated inv := by
  cases inv with
  | mk num date items n v sdi street email notes t vat =>
    simp only [from_dict, to_dict, dateTruncated, List.map_map]
    induction items with
    | nil => rfl
    | cons x xs ih => simpa using ih

end InvoiceModel

/-- Claim C1, counterexample.  The trace `[call, losePrimary, call]`
satisfies the claim's premise — at every point at least one of the two
counter files is intact (or nothing has been written yet): after the
first call both files hold 2, and after the primary file is lost the
backup survives intact — yet the two completed calls return 1 and then 1
again, a duplicate.  `get_next_counter` never consults the backup when
the primary file is missing (counter_manager.py line 379). -/
theorem counterMonotonicityCounterexample :
    CounterManager.oneFileIntactAlong
        [.call, .losePrimary, .call] = true ∧
    CounterManager.returnsOf [.call, .losePrimary, .call] = [1, 1] ∧
    ¬ List.Pairwise (· < ·)
        (CounterManager.returnsOf [.call, .losePrimary, .call]) := by
  decide

/-- Claim C1, amended: every value returned by `get_next_counter` is
strictly greater than any previously returned value, across process
restarts, abrupt termination at any point of the write sequence
(including between the backup write and the primary write), and in-place
corruption of either counter file — provided neither counter file is ever
deleted.  (If a file is lost outright the guarantee fails even when the
other file survives intact, as the counterexample shows.) -/
theorem counterMonotonicWithoutFileLoss (es : List CounterManager.CEvent)
    (hP : CounterManager.CEvent.losePrimary ∉ es)
    (hB : CounterManager.CEvent.loseBackup ∉ es) :
    List.Pairwise (· < ·) (CounterManager.returnsOf es) :=
  (CounterManager.mono_aux es CounterManager.initialCState 0
    CounterManager.cinv_initial fun _ he =>
      ⟨fun hq => hP (hq ▸ he), fun hq => hB (hq ▸ he)⟩).1

/-- Witness for the amended C1 theorem on a concrete trace featuring a
crash between the two writes and an in-place primary corruption. -/
theorem counterMonotonicWithoutFileLossWitness :
    CounterManager.CEvent.losePrimary ∉
      [CounterManager.CEvent.call, .crashBetween, .call, .corruptPrimary, .call] ∧
    CounterManager.CEvent.loseBackup ∉
      [CounterManager.CEvent.call, .crashBetween, .call, .corruptPrimary, .call] ∧
    List.Pairwise (· < ·) (CounterManager.returnsOf
      [CounterManager.CEvent.call, .crashBetween, .call, .corruptPrimary, .call]) :=
  ⟨by decide, by decide, counterMonotonicWithoutFileLoss _ (by decide) (by decide)⟩

/-- Claim C2, counterexample.  With the primary counter file absent and
the backup intact holding 5, the claimed fallback demands a current value
of 5; the code's read phase never opens the backup when the primary is
missing and yields 1 instead. -/
theorem counterReadFallbackCounterexample :
    CounterManager.readCurrent .absent (CounterManager.intactFile 5) = some 1 ∧
    CounterManager.readCurrentSpec .absent (CounterManager.intactFile 5) = 5 ∧
    CounterManager.readCurrent .absent (CounterManager.intactFile 5) ≠
      some (CounterManager.readCurrentSpec .absent (CounterManager.intactFile 5)) := by
  refine ⟨rfl, rfl, by decide⟩

/-- Claim C2, amended: while holding the lock, `get_next_counter` starts
from `counter = 1` and reads the primary file only if it exists; a missing
primary (or a missing `counter` key) silently yields 1 with no backup
fallback; integer values are accepted without any positivity check; the
backup is consulted exactly when the primary parse or `int` conversion
fails, and an unusable backup (malformed, or a non-convertible value)
raises out of the call instead of defaulting.  On the cases the
specification's reader deems usable (a positive `int` in the primary, or
in the backup behind a malformed primary), code and specification agree. -/
theorem counterReadAmended :
    (∀ b, CounterManager.readCurrent .absent b = some 1) ∧
    (∀ b, CounterManager.readCurrent (.valid .missing) b = some 1) ∧
    (∀ n b, CounterManager.readCurrent (CounterManager.intactFile n) b = some n) ∧
    (∀ b, CounterManager.readCurrent .malformed b =
      CounterManager.readBackupFallback b) ∧
    (∀ b, CounterManager.readCurrent (.valid .valueErr) b =
      CounterManager.readBackupFallback b) ∧
    (∀ n, CounterManager.readBackupFallback (CounterManager.intactFile n) = some n) ∧
    (CounterManager.readBackupFallback .absent = some 1) ∧
    (CounterManager.readBackupFallback .malformed = none) ∧
    (CounterManager.readBackupFallback (.valid .valueErr) = none) ∧
    (∀ n b, 0 < n → CounterManager.readCurrent (CounterManager.intactFile n) b =
      some (CounterManager.readCurrentSpec (CounterManager.intactFile n) b)) ∧
    (∀ n, 0 < n → CounterManager.readCurrent .malformed (CounterManager.intactFile n) =
      some (CounterManager.readCurrentSpec .malformed (CounterManager.intactFile n))) := by
  refine ⟨fun b => rfl, fun b => rfl, fun n b => rfl, fun b => rfl, fun b => rfl,
    fun n => rfl, rfl, rfl, rfl, fun n b hn => ?_, fun n hn => ?_⟩
  · simp [CounterManager.readCurrent, CounterManager.readCurrentSpec,
      CounterManager.usableCounter, CounterManager.intactFile, hn]
  · simp [CounterManager.readCurrent, CounterManager.readCurrentSpec,
      CounterManager.readBackupFallback, CounterManager.usableCounter,
      CounterManager.intactFile, hn]

/-- Witness for the amended C2 theorem, evaluating the agreement clauses
at the value 5. -/
theorem counterReadAmendedWitness :
    (0 : Int) < 5 ∧
    CounterManager.readCurrent (CounterManager.intactFile 5) .absent =
      some (CounterManager.readCurrentSpec (CounterManager.intactFile 5) .absent) ∧
    CounterManager.readCurrent .malformed (CounterManager.intactFile 5) =
      some (CounterManager.readCurrentSpec .malformed (CounterManager.intactFile 5)) :=
  ⟨by norm_num, counterReadAmended.2.2.2.2.2.2.2.2.2.1 5 .absent (by norm_num),
    counterReadAmended.2.2.2.2.2.2.2.2.2.2 5 (by norm_num)⟩

/-- Claim C3, counterexample.  Against a permanently fresh-locked file the
loop sleeps a constant 100ms before each of its 5 retries
(counter_manager.py line 290: `time.sleep(0.1)`), not the claimed
100ms × attempt number schedule. -/
theorem lockBackoffCounterexample :
    CounterManager.acquireLock CounterManager.alwaysBusy =
      (false, [100, 100, 100, 100, 100]) ∧
    [100, 100, 100, 100, 100] ≠ [100, 200, 300, 400, 500] := by
  refine ⟨?_, by decide⟩
  have h : ∀ j, j < 5 → CounterManager.lockAttempt (CounterManager.alwaysBusy (0 + j)) =
      .blocked := by decide
  simpa using CounterManager.acquireLoop_allBlocked CounterManager.alwaysBusy 5 0 h

/-- Claim C3, amended: `get_next_counter` attempts lock acquisition up to
5 times, sleeping a constant 100ms between attempts (not 100ms times the
attempt number), and when every attempt finds a fresh lock it raises a
`RuntimeError` that propagates to the caller instead of returning a
number. -/
theorem lockRetryAmended (env : ℕ → CounterManager.LockObs)
    (p b : CounterManager.CFile)
    (h : ∀ i, i < 5 → CounterManager.lockAttempt (env i) = .blocked) :
    CounterManager.acquireLock env = (false, List.replicate 5 100) ∧
    CounterManager.get_next_counter env p b = .error .lockTimeout := by
  have hl : CounterManager.acquireLock env = (false, List.replicate 5 100) :=
    CounterManager.acquireLoop_allBlocked env 5 0 fun j hj => by
      simpa using h j hj
  refine ⟨hl, ?_⟩
  simp [CounterManager.get_next_counter, hl]

/-- Witness for the amended C3 theorem against the always-busy
environment. -/
theorem lockRetryAmendedWitness :
    (∀ i, i < 5 → CounterManager.lockAttempt (CounterManager.alwaysBusy i) =
      .blocked) ∧
    CounterManager.get_next_counter CounterManager.alwaysBusy .absent .absent =
      .error .lockTimeout :=
  ⟨by decide,
    (lockRetryAmended CounterManager.alwaysBusy .absent .absent (by decide)).2⟩

/-- Claim C4, confirmed: in one acquisition attempt, a lock file older
than 30 seconds is removed and acquisition succeeds in that same
iteration, while a lock file younger than 30 seconds is left in place and
the iteration blocks (sleep and retry); with a stale lock observed at the
first attempt the whole acquisition returns success with no sleeps, and
with a fresh lock observed first the loop sleeps 100ms and continues with
the remaining four attempts. -/
theorem staleLockHandling (a : ℚ) (env : ℕ → CounterManager.LockObs) :
    (30 < a → CounterManager.lockAttemptStep (.held a) = (.acquired true, .held 0)) ∧
    (a < 30 → CounterManager.lockAttemptStep (.held a) = (.blocked, .held a)) ∧
    (env 0 = .held a → 30 < a → CounterManager.acquireLock env = (true, [])) ∧
    (env 0 = .held a → a < 30 → CounterManager.acquireLock env =
      ((CounterManager.acquireLoop env 1 4).1,
        100 :: (CounterManager.acquireLoop env 1 4).2)) := by
  refine ⟨fun h => ?_, fun h => ?_, fun he h => ?_, fun he h => ?_⟩
  · simp [CounterManager.lockAttemptStep, h]
  · simp [CounterManager.lockAttemptStep, not_lt_of_lt h, not_lt.mpr (le_of_lt h)]
  · have : CounterManager.lockAttempt (env 0) = .acquired true := by
      simp [CounterManager.lockAttempt, CounterManager.lockAttemptStep, he, h]
    simp [CounterManager.acquireLock, CounterManager.acquireLoop, this]
  · have : CounterManager.lockAttempt (env 0) = .blocked := by
      simp [CounterManager.lockAttempt, CounterManager.lockAttemptStep, he,
        not_lt.mpr (le_of_lt h)]
    simp [CounterManager.acquireLock, CounterManager.acquireLoop, this]

/-- Witness for C4 at ages 31 (stale: removed, acquired) and
29 (fresh: untouched, blocked). -/
theorem staleLockHandlingWitness :
    CounterManager.lockAttemptStep (.held 31) = (.acquired true, .held 0) ∧
    CounterManager.lockAttemptStep (.held 29) = (.blocked, .held 29) ∧
    CounterManager.acquireLock (fun _ => .held 31) = (true, []) :=
  ⟨(staleLockHandling 31 (fun _ => .held 31)).1 (by norm_num),
    (staleLockHandling 29 (fun _ => .held 29)).2.1 (by norm_num),
    (staleLockHandling 31 (fun _ => .held 31)).2.2.1 rfl (by norm_num)⟩

/-- Claim C10, confirmed: a successful `get_next_counter` returns exactly
the value its read phase produced (the pre-increment counter), and at
return time both the backup and the primary file hold the returned value
plus one; a second successful call on the resulting state (same lock
environment, no outside interference) returns the successor. -/
theorem counterPreIncrementContract (env : ℕ → CounterManager.LockObs)
    (p b : CounterManager.CFile) (c : Int) (p1 b1 : CounterManager.CFile)
    (h : CounterManager.get_next_counter env p b = .ok (c, p1, b1)) :
    CounterManager.readCurrent p b = some c ∧
    p1 = CounterManager.intactFile (c + 1) ∧
    b1 = CounterManager.intactFile (c + 1) ∧
    CounterManager.get_next_counter env p1 b1 =
      .ok (c + 1, CounterManager.intactFile (c + 2),
        CounterManager.intactFile (c + 2)) := by
  unfold CounterManager.get_next_counter at h ⊢
  by_cases hacq : (CounterManager.acquireLock env).1 = true
  · rw [if_pos hacq] at h
    rw [if_pos hacq]
    cases hr : CounterManager.readCurrent p b with
    | none => rw [hr] at h; simp at h
    | some c0 =>
      rw [hr] at h
      simp only [Except.ok.injEq, Prod.mk.injEq] at h
      obtain ⟨hc, hp1, hb1⟩ := h
      subst hc
      refine ⟨rfl, hp1.symm, hb1.symm, ?_⟩
      rw [← hp1, ← hb1]
      have hread : CounterManager.readCurrent (CounterManager.intactFile (c0 + 1))
          (CounterManager.intactFile (c0 + 1)) = some (c0 + 1) := rfl
      rw [hread]
      have harith : c0 + 1 + 1 = c0 + 2 := by omega
      show Except.ok (c0 + 1, CounterManager.intactFile (c0 + 1 + 1),
        CounterManager.intactFile (c0 + 1 + 1)) = _
      rw [harith]
  · rw [if_neg hacq] at h
    simp at h

/-- Witness for C10: from a primary holding 7, the call returns 7 and
leaves both files at 8; the next call returns 8. -/
theorem counterPreIncrementContractWitness :
    CounterManager.get_next_counter (fun _ => .free)
      (CounterManager.intactFile 7) .absent =
      .ok (7, CounterManager.intactFile 8, CounterManager.intactFile 8) ∧
    CounterManager.get_next_counter (fun _ => .free)
      (CounterManager.intactFile 8) (CounterManager.intactFile 8) =
      .ok (8, CounterManager.intactFile 9, CounterManager.intactFile 9) :=
  have h : CounterManager.get_next_counter (fun _ => .free)
      (CounterManager.intactFile 7) .absent =
      .ok (7, CounterManager.intactFile 8, CounterManager.intactFile 8) := rfl
  ⟨h, (counterPreIncrementContract (fun _ => .free) (CounterManager.intactFile 7)
    .absent 7 (CounterManager.intactFile 8) (CounterManager.intactFile 8) h).2.2.2⟩


namespace StorageManager

/-- Characterisation of `_create_backup` on a store whose file exists:
a backup of the on-disk content `d` is appended exactly when
`_should_create_backup` says so. -/
theorem create_backup_backups (s : StoreState) (stem : String)
    (d : InvoiceModel.DocDict) (hf : s.files.lookup stem = some d) :
    (create_backup s stem).backups =
      (if should_create_backup d ((latestBackup s.backups stem).map BackupFile.data)
        then s.backups ++ [⟨stem, s.clock, d, numericSig d⟩] else s.backups) := by
  unfold create_backup
  rw [hf]
  show (if should_create_backup d ((latestBackup s.backups stem).map BackupFile.data)
      then { s with backups := s.backups ++ [(⟨stem, s.clock, d, numericSig d⟩ : BackupFile)]
                    pending := s.pending ++ [BgTask.cleanBackups stem]
                    clock := s.clock + 1 }
      else { s with clock := s.clock + 1 }).backups = _
  by_cases h : should_create_backup d
      ((latestBackup s.backups stem).map BackupFile.data) = true
  · rw [if_pos h, if_pos h]
  · simp only [Bool.not_eq_true] at h
    rw [if_neg (by simp [h]), if_neg (by simp [h])]

end StorageManager

/-- Claim C5, counterexample.  A valid invoice whose date carries a
time-of-day component does not survive the save/load round trip: `to_dict`
serializes the date with `strftime('%Y-%m-%d')` and `from_dict` parses it
back to midnight, so the loaded invoice differs from the original in the
`date` field (Python `==` on the two invoices is `False`). -/
theorem roundtripCounterexample :
    InvoiceModel.Invoice.validate Samples.invLate = true ∧
    ((StorageManager.load_invoice
        (StorageManager.save_invoice StorageManager.initStore Samples.invLate).1
        "R-1").1).map (fun r => InvoiceModel.invoiceEqPy r Samples.invLate) =
      some false ∧
    (StorageManager.load_invoice
        (StorageManager.save_invoice StorageManager.initStore Samples.invLate).1
        "R-1").1 ≠ some Samples.invLate := by
  decide

/-- Claim C5, amended: saving an invoice and immediately loading it back
by its invoice number — provided the read cache holds no entry for that
key, since `save_invoice` never invalidates the `lru_cache` — yields an
invoice equal to the original in every field except that the date's
time-of-day is truncated to midnight; decimal fields restore exactly.
When the date has no time-of-day component the round trip is the
identity. -/
theorem roundtripAmended (s : StorageManager.StoreState)
    (inv : InvoiceModel.Invoice)
    (hc : s.cache.lookup inv.invoice_number = none) :
    (StorageManager.load_invoice (StorageManager.save_invoice s inv).1
        inv.invoice_number).1 = some (InvoiceModel.dateTruncated inv) ∧
    (inv.date.secondsOfDay = 0 → InvoiceModel.dateTruncated inv = inv) := by
  constructor
  · unfold StorageManager.load_invoice
    rw [StorageManager.save_invoice_cache, hc]
    show ((StorageManager.save_invoice s inv).1.files.lookup
        inv.invoice_number).map InvoiceModel.from_dict = _
    rw [StorageManager.save_invoice_files, StorageManager.lookup_setKey_self]
    simp [InvoiceModel.from_dict_to_dict]
  · intro h0
    cases inv with
    | mk num date items f1 f2 f3 f4 f5 f6 f7 f8 =>
      cases date with
      | mk y m dd sod =>
        simp only at h0
        subst h0
        rfl

/-- Witness for the amended C5 theorem: a midnight-dated invoice round
trips to itself on a fresh store. -/
theorem roundtripAmendedWitness :
    StorageManager.initStore.cache.lookup "R-2" = none ∧
    (StorageManager.load_invoice
        (StorageManager.save_invoice StorageManager.initStore
          Samples.invMidnight).1 "R-2").1 =
      some (InvoiceModel.dateTruncated Samples.invMidnight) :=
  ⟨rfl, (roundtripAmended StorageManager.initStore Samples.invMidnight rfl).1⟩

/-- Claim C6, counterexample.  On a fresh store, the very next
`list_invoices` call after `save_invoice` returns does not contain the
saved invoice number: the document is on disk, but `_update_index` was
only submitted to the background pool (storage_manager.py line 297) and
has not run. -/
theorem indexFreshnessCounterexample :
    ((StorageManager.save_invoice StorageManager.initStore
        Samples.invA).1).files.lookup "A" = some (InvoiceModel.to_dict Samples.invA) ∧
    StorageManager.list_invoices
      (StorageManager.save_invoice StorageManager.initStore Samples.invA).1 = [] ∧
    Samples.invA.invoice_number ∉ StorageManager.list_invoices
      (StorageManager.save_invoice StorageManager.initStore Samples.invA).1 := by
  decide

/-- Claim C6, amended: `save_invoice` dispatches the index update to the
background pool, so a `list`/`search` issued immediately afterwards may
miss the saved invoice; once the pending background tasks have run, the
index contains the invoice number (for every prior store state and every
invoice). -/
theorem indexFreshnessAmended (s : StorageManager.StoreState)
    (inv : InvoiceModel.Invoice) :
    inv.invoice_number ∈ StorageManager.list_invoices
      (StorageManager.runPending (StorageManager.save_invoice s inv).1) := by
  obtain ⟨l, hl⟩ := StorageManager.save_invoice_pending s inv
  unfold StorageManager.runPending
  rw [hl, List.foldl_append]
  simp only [List.foldl_cons, List.foldl_nil]
  exact StorageManager.mem_keys_of_lookup (StorageManager.lookup_setKey_self _ _ _)

/-- Claim C7, counterexample.  In the steady state for invoice `B` (its
document on disk, its most recent backup matching that document's numeric
hash), saving `B` with an item price changed from 10.00 to 20.00 creates
no new backup file at all: `_create_backup` compares the OLD on-disk
content against the latest backup (equal hashes, so it skips), then
`save_invoice` overwrites the file.  The claim demands exactly one new
timestamped backup file. -/
theorem backupSuppressionCounterexample :
    StorageManager.numericSig (InvoiceModel.to_dict Samples.invB20) ≠
      StorageManager.numericSig Samples.docB10 ∧
    ((StorageManager.save_invoice Samples.storeSteady Samples.invB20).1).backups =
      Samples.storeSteady.backups ∧
    ((StorageManager.save_invoice Samples.storeSteady Samples.invB20).1).files.lookup
      "B" = some (InvoiceModel.to_dict Samples.invB20) := by
  decide

/-- Claim C7, amended: the backup decision is made on the numeric hash of
the PREVIOUS on-disk document, not of the invoice being saved.  When
saving over an existing document `d`, a single new timestamped backup —
containing `d` — is created iff no backup exists yet for that
invoice_number or `d`'s numeric signature (items canonically ordered by
description) differs from the most recent backup's; if the signatures
match (e.g. the previous save changed only notes), no backup file is
created, even when the incoming invoice changed an item's price. -/
theorem backupSuppressionAmended (s : StorageManager.StoreState)
    (inv : InvoiceModel.Invoice) (d : InvoiceModel.DocDict)
    (hf : s.files.lookup inv.invoice_number = some d) :
    (∀ lb, StorageManager.latestBackup s.backups inv.invoice_number = some lb →
      StorageManager.numericSig d = StorageManager.numericSig lb.data →
      ((StorageManager.save_invoice s inv).1).backups = s.backups) ∧
    (∀ lb, StorageManager.latestBackup s.backups inv.invoice_number = some lb →
      StorageManager.numericSig d ≠ StorageManager.numericSig lb.data →
      ((StorageManager.save_invoice s inv).1).backups = s.backups ++
        [⟨inv.invoice_number, s.clock, d, StorageManager.numericSig d⟩]) ∧
    (StorageManager.latestBackup s.backups inv.invoice_number = none →
      ((StorageManager.save_invoice s inv).1).backups = s.backups ++
        [⟨inv.invoice_number, s.clock, d, StorageManager.numericSig d⟩]) := by
  have hsome : (s.files.lookup inv.invoice_number).isSome := by rw [hf]; rfl
  have hb : ((StorageManager.save_invoice s inv).1).backups =
      (if StorageManager.should_create_backup d
          ((StorageManager.latestBackup s.backups inv.invoice_number).map
            StorageManager.BackupFile.data)
        then s.backups ++
          [⟨inv.invoice_number, s.clock, d, StorageManager.numericSig d⟩]
        else s.backups) := by
    rw [StorageManager.save_invoice_backups, if_pos hsome]
    exact StorageManager.create_backup_backups s inv.invoice_number d hf
  refine ⟨?_, ?_, ?_⟩
  · intro lb hl he
    rw [hl] at hb
    have hs : StorageManager.should_create_backup d
        ((some lb).map StorageManager.BackupFile.data) = false := by
      simp [StorageManager.should_create_backup, he]
    rw [hs] at hb
    simpa using hb
  · intro lb hl he
    rw [hl] at hb
    have hs : StorageManager.should_create_backup d
        ((some lb).map StorageManager.BackupFile.data) = true := by
      simp [StorageManager.should_create_backup, he]
    rw [hs] at hb
    simpa using hb
  · intro hl
    rw [hl] at hb
    have hs : StorageManager.should_create_backup d
        ((none : Option StorageManager.BackupFile).map
          StorageManager.BackupFile.data) = true := rfl
    rw [hs] at hb
    simpa using hb

/-- Witness for the amended C7 theorem: in the steady state for `B`, a
save with only the notes changed appends no backup (matching signatures),
exercising the first clause. -/
theorem backupSuppressionAmendedWitness :
    Samples.storeSteady.files.lookup "B" = some Samples.docB10 ∧
    StorageManager.latestBackup Samples.storeSteady.backups "B" =
      some ⟨"B", 0, Samples.docB10, StorageManager.numericSig Samples.docB10⟩ ∧
    ((StorageManager.save_invoice Samples.storeSteady Samples.invB10n).1).backups =
      Samples.storeSteady.backups :=
  ⟨by decide, by decide,
    (backupSuppressionAmended Samples.storeSteady Samples.invB10n Samples.docB10
      (by decide)).1
      (⟨"B", 0, Samples.docB10, StorageManager.numericSig Samples.docB10⟩ :
        StorageManager.BackupFile)
      (by decide) (by decide)⟩

/-- Claim C8, counterexample.  With invoices `A` and `B` both present in
the read cache, deleting `B` returns `True` but wipes the whole cache
(`load_invoice.cache_clear()`, storage_manager.py line 363): the cached
entry for the unrelated invoice `A` does not survive, contradicting the
claimed per-key invalidation. -/
theorem deleteCacheFlushCounterexample :
    Samples.storeCached.cache.lookup "A" = some (some Samples.invA) ∧
    (StorageManager.delete_invoice Samples.storeCached "B").1 = true ∧
    ((StorageManager.delete_invoice Samples.storeCached "B").2).cache.lookup "A" =
      none := by
  decide

/-- Claim C8, amended: `delete_invoice` returns `False` and changes
nothing when no document with the key exists; when it exists, it runs the
backup routine (a new snapshot only when the numeric hash differs from
the newest backup or none exists), removes the document file (leaving
every other key untouched), removes the index entry synchronously, clears
the ENTIRE read cache rather than the one key, and returns `True`. -/
theorem deleteContractAmended (s : StorageManager.StoreState) (num : String) :
    (s.files.lookup num = none → StorageManager.delete_invoice s num = (false, s)) ∧
    (∀ d, s.files.lookup num = some d →
      (StorageManager.delete_invoice s num).1 = true ∧
      ((StorageManager.delete_invoice s num).2).files.lookup num = none ∧
      (∀ k, k ≠ num →
        ((StorageManager.delete_invoice s num).2).files.lookup k =
          s.files.lookup k) ∧
      ((StorageManager.delete_invoice s num).2).index.lookup num = none ∧
      ((StorageManager.delete_invoice s num).2).cache = [] ∧
      ((StorageManager.delete_invoice s num).2).backups =
        (StorageManager.create_backup s num).backups) := by
  constructor
  · intro h
    unfold StorageManager.delete_invoice
    rw [h]
    rfl
  · intro d hd
    have hsome : (s.files.lookup num).isSome := by rw [hd]; rfl
    unfold StorageManager.delete_invoice
    rw [if_pos hsome]
    refine ⟨rfl, ?_, ?_, ?_, rfl, rfl⟩
    · show (StorageManager.removeKey
          (StorageManager.create_backup s num).files num).lookup num = none
      rw [StorageManager.create_backup_files]
      exact StorageManager.lookup_removeKey_self _ _
    · intro k hk
      show (StorageManager.removeKey
          (StorageManager.create_backup s num).files num).lookup k =
        s.files.lookup k
      rw [StorageManager.create_backup_files]
      exact StorageManager.lookup_removeKey_ne _ hk
    · show (StorageManager.removeKey
          (StorageManager.create_backup s num).index num).lookup num = none
      rw [StorageManager.create_backup_index]
      exact StorageManager.lookup_removeKey_self _ _

/-- Witness for the amended C8 theorem at the concrete cached store. -/
theorem deleteContractAmendedWitness :
    Samples.storeCached.files.lookup "B" = some Samples.docB10 ∧
    (StorageManager.delete_invoice Samples.storeCached "B").1 = true ∧
    ((StorageManager.delete_invoice Samples.storeCached "B").2).files.lookup "B" =
      none ∧
    StorageManager.delete_invoice Samples.storeCached "Z" =
      (false, Samples.storeCached) :=
  ⟨by decide,
    ((deleteContractAmended Samples.storeCached "B").2 Samples.docB10 (by decide)).1,
    ((deleteContractAmended Samples.storeCached "B").2 Samples.docB10
      (by decide)).2.1,
    (deleteContractAmended Samples.storeCached "Z").1 (by decide)⟩

/-- Claim C9, counterexample.  `save_invoice` performs no validation: an
invoice with an empty items list (hence `validate() == False`) is
persisted verbatim, with no error raised — the function has no failure
path at all. -/
theorem validationGateCounterexample :
    InvoiceModel.Invoice.validate Samples.invBad = false ∧
    ((StorageManager.save_invoice StorageManager.initStore
        Samples.invBad).1).files.lookup "BAD" =
      some (InvoiceModel.to_dict Samples.invBad) := by
  decide

/-- Claim C9, amended: the document store's `save_invoice` never
validates and persists every invoice unchanged, valid or not (the
validation gate exists only in `Invoice.validate` itself, which holds iff
the stripped invoice number is non-empty, the items list is non-empty,
and every item has a non-blank description, positive quantity and
non-negative price). -/
theorem validationGateAmended (s : StorageManager.StoreState)
    (inv : InvoiceModel.Invoice) :
    ((StorageManager.save_invoice s inv).1).files.lookup inv.invoice_number =
      some (InvoiceModel.to_dict inv) ∧
    (InvoiceModel.Invoice.validate inv = true ↔
      (InvoiceModel.pyStrip inv.invoice_number ≠ "" ∧ inv.items ≠ [] ∧
        ∀ it ∈ inv.items, InvoiceModel.pyStrip it.description ≠ "" ∧
          0 < it.quantity.c ∧ 0 ≤ it.price.c)) := by
  constructor
  · rw [StorageManager.save_invoice_files]
    exact StorageManager.lookup_setKey_self _ _ _
  · simp only [InvoiceModel.Invoice.validate, InvoiceModel.InvoiceItem.validate,
      InvoiceModel.pdLtPy, InvoiceModel.pdLePy, InvoiceModel.pdZero,
      Bool.and_eq_true, Bool.not_eq_true', beq_eq_false_iff_ne, ne_eq,
      decide_eq_true_eq, List.all_eq_true, List.length_pos, zero_mul, pow_zero,
      mul_one]
    constructor
    · rintro ⟨⟨h1, h2⟩, h3⟩
      exact ⟨h1, h2, fun it hit =>
        ⟨((h3 it hit).1).1, ((h3 it hit).1).2, (h3 it hit).2⟩⟩
    · rintro ⟨h1, h2, h3⟩
      exact ⟨⟨h1, h2⟩, fun it hit =>
        ⟨⟨(h3 it hit).1, (h3 it hit).2.1⟩, (h3 it hit).2.2⟩⟩

/-- Witness for the amended C9 theorem: the (invalid) empty-items invoice
is persisted on a fresh store. -/
theorem validationGateAmendedWitness :
    ((StorageManager.save_invoice StorageManager.initStore
        Samples.invBad).1).files.lookup "BAD" =
      some (InvoiceModel.to_dict Samples.invBad) :=
  (validationGateAmended StorageManager.initStore Samples.invBad).1
